import Mathlib

/-!
Verification of the osprey in-memory key-value store against its
natural-language specification.

The Go source is shallowly embedded: byte strings are `List Nat` (each
element a byte value), Go `int64` is `Int` with explicit wrap-around where
overflow matters, Go `uint64`/`uint32` are `Nat` with explicit `% 2^64` /
`% 2^32` where the source truncates, and wall-clock time (`time.Now()`)
is an explicit `nowMs : Int` parameter.  Stateful methods become
functions returning a result together with the new state.
-/

namespace Osprey

/-- Byte strings (Go `[]byte` / `string`): lists of byte values. -/
abbrev Bytes := List Nat

/-- `Entry` from `internal/storage/entry.go`. -/
structure Entry where
  Value : Bytes
  Version : Nat
  ExpiryMs : Int
  SizeBytes : Nat
deriving DecidableEq, Repr

/-- `Entry.IsExpired` from `entry.go`: `expiry_ms ≥ 0 ∧ now > expiry_ms`,
with `time.Now()` passed explicitly as `nowMs`. -/
def Entry.IsExpired (e : Entry) (nowMs : Int) : Bool :=
  if e.ExpiryMs < 0 then false else decide (nowMs > e.ExpiryMs)

/-- `Entry.TTL` from `entry.go`. -/
def Entry.TTL (e : Entry) (nowMs : Int) : Int :=
  if e.ExpiryMs < 0 then -1
  else if e.ExpiryMs - nowMs < 0 then -2
  else e.ExpiryMs - nowMs

/-- The configuration fields the store consumes
(`internal/config`, referenced from `store.go` and `snapshot_manager.go`). -/
structure Config where
  MaxKeyBytes : Nat
  MaxValueBytes : Nat
  WALMaxBytes : Int
deriving DecidableEq, Repr

/-- The store errors of `store.go` (`ErrKeyNotFound`, `ErrKeyExists`, ...). -/
inductive StoreError where
  | keyNotFound
  | keyExists
  | versionMismatch
  | notInteger
  | keyTooLarge
  | valueTooLarge
  | keyInvalid
deriving DecidableEq, Repr

/-- `validateKey` from `store.go`: a key is invalid when any byte is the
ASCII space (0x20), a C0 control character (0x00-0x1F) or DEL (0x7F).
Returns `true` when the key is valid (the source returns a nil error). -/
def validateKey (key : Bytes) : Bool :=
  key.all fun c => !(decide (c = 0x20 ∨ c ≤ 0x1F ∨ c = 0x7F))

/-- `SetOptions` from `store.go`. -/
structure SetOptions where
  ExpiryMs : Int := 0
  AbsoluteExpiryMs : Int := 0
  NX : Bool := false
  XX : Bool := false
  CheckVersion : Bool := false
  Version : Nat := 0
deriving DecidableEq, Repr

/-- The statistics counters of `store.go` (`Stats`). -/
structure Stats where
  CmdGet : Nat := 0
  CmdSet : Nat := 0
  CmdDel : Nat := 0
  CmdIncr : Nat := 0
  ExpiredTotal : Nat := 0
  EvictedTotal : Nat := 0
deriving DecidableEq, Repr

/-- The in-memory store state of `store.go`: the key→entry map (as an
association list with unique keys), the expiry heap contents (heap order is
irrelevant to the claims; the source tolerates stale duplicates), and the
statistics counters. -/
structure Store where
  data : List (Bytes × Entry) := []
  expiryHeap : List (Bytes × Int) := []
  stats : Stats := {}
deriving DecidableEq, Repr

/-- Map lookup `s.data[key]`. -/
def lookupKey (d : List (Bytes × Entry)) (k : Bytes) : Option Entry :=
  match d with
  | [] => none
  | (k', e) :: rest => if k' = k then some e else lookupKey rest k

/-- Map update `s.data[key] = entry` (replaces the binding if present). -/
def insertKey (d : List (Bytes × Entry)) (k : Bytes) (e : Entry) :
    List (Bytes × Entry) :=
  match d with
  | [] => [(k, e)]
  | (k', e') :: rest =>
      if k' = k then (k, e) :: rest else (k', e') :: insertKey rest k e

/-- Map removal `delete(s.data, key)`. -/
def eraseKey (d : List (Bytes × Entry)) (k : Bytes) : List (Bytes × Entry) :=
  match d with
  | [] => []
  | (k', e') :: rest =>
      if k' = k then eraseKey rest k else (k', e') :: eraseKey rest k

/-- `Store.Get` from `store.go`: validate the key, count the command, then
look up; an expired entry is lazily deleted (bumping `expired_total`) and
reported as `KeyNotFound`. -/
def Store.Get (s : Store) (nowMs : Int) (key : Bytes) :
    Except StoreError Entry × Store :=
  if validateKey key = false then (.error .keyInvalid, s)
  else
    let s := { s with stats := { s.stats with CmdGet := s.stats.CmdGet + 1 } }
    match lookupKey s.data key with
    | none => (.error .keyNotFound, s)
    | some entry =>
      if entry.IsExpired nowMs then
        (.error .keyNotFound,
          { s with
            data := eraseKey s.data key,
            stats := { s.stats with ExpiredTotal := s.stats.ExpiredTotal + 1 } })
      else (.ok entry, s)

/-- `Store.Set` from `store.go`, checks in source order: key length, key
validity, value length, then (under the lock, after counting the command)
the NX / XX / version guards, then version and expiry computation, map
update and conditional heap push. -/
def Store.Set (s : Store) (cfg : Config) (nowMs : Int) (key value : Bytes)
    (opts : SetOptions) : Except StoreError Nat × Store :=
  if key.length > cfg.MaxKeyBytes then (.error .keyTooLarge, s)
  else if validateKey key = false then (.error .keyInvalid, s)
  else if value.length > cfg.MaxValueBytes then (.error .valueTooLarge, s)
  else
    let s := { s with stats := { s.stats with CmdSet := s.stats.CmdSet + 1 } }
    let existing := lookupKey s.data key
    let livePresent : Bool :=
      match existing with
      | some e => !(e.IsExpired nowMs)
      | none => false
    if opts.NX && livePresent then (.error .keyExists, s)
    else if opts.XX && !livePresent then (.error .keyNotFound, s)
    else if opts.CheckVersion && livePresent &&
        (match existing with
         | some e => decide (e.Version ≠ opts.Version)
         | none => false) then (.error .versionMismatch, s)
    else
      let newVersion : Nat :=
        match existing with
        | some e => if e.IsExpired nowMs then 1 else e.Version + 1
        | none => 1
      let expiryMs : Int :=
        if opts.ExpiryMs > 0 then nowMs + opts.ExpiryMs
        else if opts.AbsoluteExpiryMs > 0 then opts.AbsoluteExpiryMs
        else -1
      let entry : Entry :=
        { Value := value, Version := newVersion, ExpiryMs := expiryMs,
          SizeBytes := value.length }
      let s := { s with data := insertKey s.data key entry }
      let s :=
        if expiryMs > 0 then
          { s with expiryHeap := s.expiryHeap ++ [(key, expiryMs)] }
        else s
      (.ok newVersion, s)

/-- `Store.Delete` from `store.go`. -/
def Store.Delete (s : Store) (nowMs : Int) (key : Bytes) : Bool × Store :=
  if validateKey key = false then (false, s)
  else
    let s := { s with stats := { s.stats with CmdDel := s.stats.CmdDel + 1 } }
    match lookupKey s.data key with
    | none => (false, s)
    | some entry =>
      if entry.IsExpired nowMs then (false, s)
      else (true, { s with data := eraseKey s.data key })

/-- `Store.Exists` from `store.go`. -/
def Store.Exists (s : Store) (nowMs : Int) (key : Bytes) : Bool :=
  if validateKey key = false then false
  else
    match lookupKey s.data key with
    | none => false
    | some entry => !(entry.IsExpired nowMs)

/-- `Store.Expire` from `store.go`: on a live entry it overwrites
`ExpiryMs` in place with `now + ttl` and pushes a heap node; the version,
value and size are untouched. -/
def Store.Expire (s : Store) (nowMs : Int) (key : Bytes) (ttlMs : Int) :
    Except StoreError Unit × Store :=
  if validateKey key = false then (.error .keyInvalid, s)
  else
    match lookupKey s.data key with
    | none => (.error .keyNotFound, s)
    | some entry =>
      if entry.IsExpired nowMs then (.error .keyNotFound, s)
      else
        (.ok (),
          { s with
            data := insertKey s.data key { entry with ExpiryMs := nowMs + ttlMs },
            expiryHeap := s.expiryHeap ++ [(key, nowMs + ttlMs)] })

/-- Go `strconv.ParseInt` digit loop: all bytes must be ASCII digits. -/
def parseDigitsAux (acc : Nat) : Bytes → Option Nat
  | [] => some acc
  | c :: cs =>
      if 48 ≤ c ∧ c ≤ 57 then parseDigitsAux (acc * 10 + (c - 48)) cs
      else none

/-- Digit-string value; an empty digit string is a syntax error. -/
def parseDigits : Bytes → Option Nat
  | [] => none
  | l => parseDigitsAux 0 l

/-- Go `strconv.ParseInt(s, 10, 64)`: optional sign, base-10 digits, and
the signed 64-bit range check (`none` models a parse error). -/
def parseInt64 (s : Bytes) : Option Int :=
  match s with
  | [] => none
  | c :: rest =>
    let digits := if c = 43 ∨ c = 45 then rest else s
    match parseDigits digits with
    | none => none
    | some n =>
      if c = 45 then
        if n ≤ 9223372036854775808 then some (-(n : Int)) else none
      else
        if n ≤ 9223372036854775807 then some (n : Int) else none

/-- Decimal digits of a natural number, most significant first
(fuel-based so that the kernel can evaluate it). -/
def decDigits (fuel n : Nat) : Bytes :=
  match fuel, n with
  | 0, _ => []
  | _, 0 => []
  | fuel + 1, n => decDigits fuel (n / 10) ++ [n % 10 + 48]

/-- Decimal ASCII bytes of a natural number. -/
def formatNat (n : Nat) : Bytes :=
  if n = 0 then [48] else decDigits (n + 1) n

/-- Go `strconv.FormatInt(v, 10)`: decimal ASCII, `-` prefix if negative. -/
def formatInt (v : Int) : Bytes :=
  if v < 0 then 45 :: formatNat v.natAbs else formatNat v.toNat

/-- Go two's-complement `int64` addition (wraps on overflow). -/
def int64add (a b : Int) : Int :=
  (a + b + 9223372036854775808) % 18446744073709551616 - 9223372036854775808

/-- `Store.Incr` from `store.go`: absent or expired keys count from 0, a
live value must parse as a signed 64-bit base-10 integer, the sum is
stored as decimal ASCII with no expiry, and the version follows the same
rule as `Set`. -/
def Store.Incr (s : Store) (nowMs : Int) (key : Bytes) (delta : Int) :
    Except StoreError Int × Store :=
  if validateKey key = false then (.error .keyInvalid, s)
  else
    let s := { s with stats := { s.stats with CmdIncr := s.stats.CmdIncr + 1 } }
    let existing := lookupKey s.data key
    let currentRes : Except StoreError Int :=
      match existing with
      | none => .ok 0
      | some entry =>
        if entry.IsExpired nowMs then .ok 0
        else
          match parseInt64 entry.Value with
          | none => .error .notInteger
          | some v => .ok v
    match currentRes with
    | .error e => (.error e, s)
    | .ok currentVal =>
      let newVal := int64add currentVal delta
      let newValStr := formatInt newVal
      let newVersion : Nat :=
        match existing with
        | some entry => if entry.IsExpired nowMs then 1 else entry.Version + 1
        | none => 1
      (.ok newVal,
        { s with
          data := insertKey s.data key
            { Value := newValStr, Version := newVersion, ExpiryMs := -1,
              SizeBytes := newValStr.length } })

/-! ## Server dispatch layer (`internal/server`, handlers in the server package)

Only the error-code mapping of the handlers is modelled: each handler
translates a store result into a wire response (`ERR <code>` lines carry
just the code here; the human-readable message does not matter to the
claims). -/

/-- Wire responses produced by the command handlers. -/
inductive Resp where
  | pong
  | okUnit
  | okVersion (v : Nat)
  | notFound
  | valueResp (e : Entry)
  | deleted (b : Bool)
  | existsResp (b : Bool)
  | intResp (i : Int)
  | err (code : String)
deriving DecidableEq, Repr

/-- The error switch of `handleSet`: `ErrKeyExists → EXISTS`,
`ErrKeyNotFound → NEXISTS`, `ErrVersionMismatch → VER`,
`ErrKeyTooLarge`/`ErrValueTooLarge → TOOLARGE`, everything else
(including `ErrKeyInvalid`) falls to the default `INTERNAL` branch. -/
def setErrorCode : StoreError → String
  | .keyExists => "EXISTS"
  | .keyNotFound => "NEXISTS"
  | .versionMismatch => "VER"
  | .keyTooLarge => "TOOLARGE"
  | .valueTooLarge => "TOOLARGE"
  | _ => "INTERNAL"

/-- `handleSet` after option parsing: run `Store.Set`, answer `OK <ver>`
or the mapped error code. -/
def handleSet (s : Store) (cfg : Config) (nowMs : Int) (key payload : Bytes)
    (opts : SetOptions) : Resp × Store :=
  match Store.Set s cfg nowMs key payload opts with
  | (.ok v, s') => (.okVersion v, s')
  | (.error e, s') => (.err (setErrorCode e), s')

/-- `handleGet`: `ErrKeyNotFound` answers `NOT_FOUND`; any other error
(including `ErrKeyInvalid`) answers `ERR INTERNAL`. -/
def handleGet (s : Store) (nowMs : Int) (key : Bytes) : Resp × Store :=
  match Store.Get s nowMs key with
  | (.ok e, s') => (.valueResp e, s')
  | (.error e, s') =>
      ((if e = .keyNotFound then Resp.notFound else Resp.err "INTERNAL"), s')

/-- `handleExpire`: `ErrKeyNotFound` answers `NOT_FOUND`; any other error
(including `ErrKeyInvalid`) answers `ERR INTERNAL`. -/
def handleExpire (s : Store) (nowMs : Int) (key : Bytes) (ttlMs : Int) :
    Resp × Store :=
  match Store.Expire s nowMs key ttlMs with
  | (.ok _, s') => (.okUnit, s')
  | (.error e, s') =>
      ((if e = .keyNotFound then Resp.notFound else Resp.err "INTERNAL"), s')

/-- `handleIncr` (serves INCR and DECR): `ErrNotInteger` answers
`ERR TYPE`; any other error (including `ErrKeyInvalid`) answers
`ERR INTERNAL`. -/
def handleIncr (s : Store) (nowMs : Int) (key : Bytes) (delta : Int) :
    Resp × Store :=
  match Store.Incr s nowMs key delta with
  | (.ok v, s') => (.intResp v, s')
  | (.error e, s') =>
      ((if e = .notInteger then Resp.err "TYPE" else Resp.err "INTERNAL"), s')

/-! ## Write-ahead log record codec (`WAL.serializeRecord` and
`WALReader.ReadRecord`) -/

/-- `WALMagic` (0x4F535057, 'OSPW'). -/
def WALMagic : Nat := 0x4F535057

/-- `WALVersion` = 1. -/
def WALVersion : Nat := 1

/-- `RecordTypeSET` = 0. -/
def RecordTypeSET : Nat := 0

/-- `RecordTypeDEL` = 1. -/
def RecordTypeDEL : Nat := 1

/-- `RecordTypeEXPIRE` = 2. -/
def RecordTypeEXPIRE : Nat := 2

/-- `WALRecord` (the Go field `Type` is spelled `typ` here because `Type`
is reserved in Lean). -/
structure WALRecord where
  typ : Nat
  Key : Bytes
  Value : Bytes
  ExpiryMs : Int
  Version : Nat
deriving DecidableEq, Repr

/-- `binary.LittleEndian.PutUint16`. -/
def le16 (n : Nat) : Bytes := [n % 256, n / 256 % 256]

/-- `binary.LittleEndian.PutUint32`. -/
def le32 (n : Nat) : Bytes :=
  [n % 256, n / 256 % 256, n / 65536 % 256, n / 16777216 % 256]

/-- `binary.LittleEndian.PutUint64`. -/
def le64 (n : Nat) : Bytes :=
  [n % 256, n / 256 % 256, n / 65536 % 256, n / 16777216 % 256,
   n / 4294967296 % 256, n / 1099511627776 % 256,
   n / 281474976710656 % 256, n / 72057594037927936 % 256]

/-- `binary.LittleEndian.Uint16` on two bytes. -/
def de16 (a b : Nat) : Nat := a + 256 * b

/-- `binary.LittleEndian.Uint32` on four bytes. -/
def de32 (a b c d : Nat) : Nat := a + 256 * b + 65536 * c + 16777216 * d

/-- `binary.LittleEndian.Uint64` on eight bytes. -/
def de64 (a b c d e f g h : Nat) : Nat :=
  a + 256 * b + 65536 * c + 16777216 * d + 4294967296 * e +
    1099511627776 * f + 281474976710656 * g + 72057594037927936 * h

/-- Go `uint64(i)` for an `int64` value: reduction mod 2^64. -/
def toU64 (i : Int) : Nat := (i % 18446744073709551616).toNat

/-- Go `int64(n)` for a `uint64` value: two's-complement reinterpretation. -/
def toI64 (n : Nat) : Int :=
  if n < 9223372036854775808 then (n : Int)
  else (n : Int) - 18446744073709551616

/-- One shift-xor step of the bit-reflected CRC-32 computation with the
Castagnoli polynomial (reversed representation 0x82F63B78 of the
polynomial 0x1EDC6F41). -/
def crcStep (c : Nat) : Nat :=
  if c % 2 = 1 then (c / 2) ^^^ 0x82F63B78 else c / 2

/-- Fold one input byte into the CRC state (eight bit steps), as the
table-driven `crc32.Checksum` with `crc32.MakeTable(crc32.Castagnoli)`
does per byte. -/
def crcByte (c b : Nat) : Nat :=
  crcStep (crcStep (crcStep (crcStep (crcStep (crcStep (crcStep (crcStep
    (c ^^^ b % 256))))))))

/-- CRC-32C (Castagnoli) of a byte sequence: initial state `0xFFFFFFFF`,
per-byte folding, final complement — the function computed by Go's
`crc32.Checksum(data, crc32.MakeTable(crc32.Castagnoli))`. -/
def crc32c (data : Bytes) : Nat :=
  (data.foldl crcByte 0xFFFFFFFF) ^^^ 0xFFFFFFFF

/-- The byte range `buf[6:offset]` of `serializeRecord`, i.e. exactly the
bytes from the `type` field through the end of the value: type (1 byte),
key length (u32), value length (u32), expiry (i64 as u64), version (u64),
key bytes, value bytes. -/
def walRecordBody (r : WALRecord) : Bytes :=
  r.typ % 256 ::
    (le32 (r.Key.length % 4294967296) ++ le32 (r.Value.length % 4294967296) ++
      le64 (toU64 r.ExpiryMs) ++ le64 (r.Version % 18446744073709551616) ++
      r.Key ++ r.Value)

/-- `WAL.serializeRecord`: magic, format version, then the record body,
then the CRC32C of the body (little-endian u32). -/
def serializeRecord (r : WALRecord) : Bytes :=
  le32 WALMagic ++ le16 WALVersion ++ walRecordBody r ++
    le32 (crc32c (walRecordBody r))

/-- The read errors of `WALReader.ReadRecord` (`io.EOF`,
`io.ErrUnexpectedEOF` from a short read, `ErrInvalidMagic`,
`ErrInvalidVersion`, `ErrCorruptedRecord`). -/
inductive WALReadError where
  | eof
  | unexpectedEOF
  | invalidMagic
  | invalidVersion
  | corruptedRecord
deriving DecidableEq, Repr

/-- `io.ReadFull`: read exactly `n` bytes from the stream or fail. -/
def readBytes : Nat → Bytes → Option (Bytes × Bytes)
  | 0, s => some ([], s)
  | _ + 1, [] => none
  | n + 1, b :: s =>
    match readBytes n s with
    | none => none
    | some (pre, post) => some (b :: pre, post)

/-- `WALReader.ReadRecord`: header (magic, version, type), lengths,
metadata, key, value, stored CRC; the CRC is recomputed over the
reconstructed `[type .. end-of-value]` bytes and compared.  Returns the
record and the remaining stream. -/
def ReadRecord (s : Bytes) : Except WALReadError (WALRecord × Bytes) :=
  match readBytes 7 s with
  | none => .error (if s.isEmpty then .eof else .unexpectedEOF)
  | some (header, rest) =>
    match header with
    | [m0, m1, m2, m3, v0, v1, t] =>
      if de32 m0 m1 m2 m3 ≠ WALMagic then .error .invalidMagic
      else if de16 v0 v1 ≠ WALVersion then .error .invalidVersion
      else
        match readBytes 8 rest with
        | none => .error .unexpectedEOF
        | some (lens, rest) =>
          match lens with
          | [k0, k1, k2, k3, l0, l1, l2, l3] =>
            let keyLen := de32 k0 k1 k2 k3
            let valLen := de32 l0 l1 l2 l3
            match readBytes 16 rest with
            | none => .error .unexpectedEOF
            | some (meta, rest) =>
              match meta with
              | [e0, e1, e2, e3, e4, e5, e6, e7,
                 w0, w1, w2, w3, w4, w5, w6, w7] =>
                let expiryMs := toI64 (de64 e0 e1 e2 e3 e4 e5 e6 e7)
                let recVersion := de64 w0 w1 w2 w3 w4 w5 w6 w7
                match readBytes keyLen rest with
                | none => .error .unexpectedEOF
                | some (key, rest) =>
                  match readBytes valLen rest with
                  | none => .error .unexpectedEOF
                  | some (value, rest) =>
                    match readBytes 4 rest with
                    | none => .error .unexpectedEOF
                    | some (crcB, rest) =>
                      match crcB with
                      | [c0, c1, c2, c3] =>
                        let expectedCRC := de32 c0 c1 c2 c3
                        let data :=
                          t :: (le32 keyLen ++ le32 valLen ++
                            le64 (toU64 expiryMs) ++ le64 recVersion ++
                            key ++ value)
                        if crc32c data ≠ expectedCRC then
                          .error .corruptedRecord
                        else
                          .ok ({ typ := t, Key := key, Value := value,
                                 ExpiryMs := expiryMs,
                                 Version := recVersion }, rest)
                      | _ => .error .unexpectedEOF
              | _ => .error .unexpectedEOF
          | _ => .error .unexpectedEOF
    | _ => .error .unexpectedEOF

/-! ## Persistent store write path (`persistent_store.go`) and snapshot
trigger (`snapshot_manager.go`) -/

/-- `PersistentStore` state: the in-memory store plus the WAL contents
(the sequence of appended records; file framing is handled separately by
`serializeRecord`). -/
structure PersistentStore where
  store : Store := {}
  wal : List WALRecord := []
deriving DecidableEq, Repr

/-- Outcomes of `PersistentStore.Set`.  `nilDereference` is the Go panic
that occurs when `ps.Store.Get` returns a nil entry and the code then
reads `entry.ExpiryMs`. -/
inductive PSSetResult where
  | ok (version : Nat) (ps : PersistentStore)
  | err (e : StoreError) (ps : PersistentStore)
  | nilDereference
deriving DecidableEq, Repr

/-- `PersistentStore.Set` from `persistent_store.go`: apply the in-memory
`Store.Set`, then `Get` the just-written key (ignoring its error exactly
as the source's `entry, _ :=` does) and read `entry.ExpiryMs` to build the
WAL record — a nil dereference when that `Get` found no live entry. -/
def PersistentStore.Set (ps : PersistentStore) (cfg : Config) (nowMs : Int)
    (key value : Bytes) (opts : SetOptions) : PSSetResult :=
  match Store.Set ps.store cfg nowMs key value opts with
  | (.error e, s1) => .err e { ps with store := s1 }
  | (.ok version, s1) =>
    match Store.Get s1 nowMs key with
    | (.error _, _) => .nilDereference
    | (.ok entry, s2) =>
      .ok version
        { store := s2,
          wal := ps.wal ++
            [{ typ := RecordTypeSET, Key := key, Value := value,
               ExpiryMs := entry.ExpiryMs, Version := version }] }

/-- Round a rational to the nearest integer, ties to even (the IEEE-754
default rounding direction). -/
def rnHalfEven (x : ℚ) : ℤ :=
  if x - ⌊x⌋ < 1 / 2 then ⌊x⌋
  else if 1 / 2 < x - ⌊x⌋ then ⌊x⌋ + 1
  else if ⌊x⌋ % 2 = 0 then ⌊x⌋ else ⌊x⌋ + 1

/-- The value of an IEEE-754 binary64 (Go `float64`) rounding of an exact
rational: the significand is rounded to 53 bits at the value's binade,
round-to-nearest, ties-to-even.  Overflow and subnormals are not modelled:
for the values reachable from `NeedsSnapshot` (int64 operands and their
quotients, all of magnitude within [2^-63, 2^63]) binary64 arithmetic
stays in the normal range, where this is exactly the IEEE-754 rounding
function. -/
def float64round (q : ℚ) : ℚ :=
  if q = 0 then 0
  else if 0 < q then
    (rnHalfEven (q * 2 ^ (52 - Int.log 2 q)) : ℚ) * 2 ^ (Int.log 2 q - 52)
  else
    -((rnHalfEven (-q * 2 ^ (52 - Int.log 2 (-q))) : ℚ) * 2 ^ (Int.log 2 (-q) - 52))

/-- `SnapshotManager.NeedsSnapshot` from `snapshot_manager.go`.  The Go
ratio test `float64(liveBytes)/float64(deadBytes) < 0.5` is modelled
faithfully: both int64 operands are converted to binary64
(`float64round` of their exact values), the quotient is the correctly
rounded (round-to-nearest-even) binary64 division result, and 0.5 is
exactly representable, so the float comparison is the exact comparison of
the rounded quotient with 1/2. -/
def NeedsSnapshot (cfg : Config) (lastSnapshotMs nowMs : Int)
    (walSize liveBytes deadBytes : Int) : Bool :=
  if walSize > cfg.WALMaxBytes then true
  else if deadBytes > 0 ∧
      float64round (float64round (liveBytes : ℚ) / float64round (deadBytes : ℚ)) <
        1 / 2 then true
  else if nowMs - lastSnapshotMs > 10 * 60 * 1000 then true
  else false

/-! ## Helper lemmas for the WAL codec round trip -/

theorem readBytes_append (A B : Bytes) :
    readBytes A.length (A ++ B) = some (A, B) := by
  induction A with
  | nil => rfl
  | cons a as ih => simp [readBytes, ih]

theorem readBytes7 (b0 b1 b2 b3 b4 b5 b6 : Nat) (s : Bytes) :
    readBytes 7 (b0 :: b1 :: b2 :: b3 :: b4 :: b5 :: b6 :: s) =
      some ([b0, b1, b2, b3, b4, b5, b6], s) := rfl

theorem readBytes8 (b0 b1 b2 b3 b4 b5 b6 b7 : Nat) (s : Bytes) :
    readBytes 8 (b0 :: b1 :: b2 :: b3 :: b4 :: b5 :: b6 :: b7 :: s) =
      some ([b0, b1, b2, b3, b4, b5, b6, b7], s) := rfl

theorem readBytes16 (b0 b1 b2 b3 b4 b5 b6 b7 b8 b9 b10 b11 b12 b13 b14 b15 : Nat)
    (s : Bytes) :
    readBytes 16 (b0 :: b1 :: b2 :: b3 :: b4 :: b5 :: b6 :: b7 :: b8 :: b9 ::
        b10 :: b11 :: b12 :: b13 :: b14 :: b15 :: s) =
      some ([b0, b1, b2, b3, b4, b5, b6, b7, b8, b9, b10, b11, b12, b13, b14,
        b15], s) := rfl

theorem readBytes4 (b0 b1 b2 b3 : Nat) (s : Bytes) :
    readBytes 4 (b0 :: b1 :: b2 :: b3 :: s) = some ([b0, b1, b2, b3], s) := rfl

theorem de32_le32 (n : Nat) :
    de32 (n % 256) (n / 256 % 256) (n / 65536 % 256) (n / 16777216 % 256) =
      n % 4294967296 := by
  unfold de32; omega

theorem de64_le64 (n : Nat) :
    de64 (n % 256) (n / 256 % 256) (n / 65536 % 256) (n / 16777216 % 256)
      (n / 4294967296 % 256) (n / 1099511627776 % 256)
      (n / 281474976710656 % 256) (n / 72057594037927936 % 256) =
      n % 18446744073709551616 := by
  unfold de64; omega

theorem toU64_lt (i : Int) : toU64 i < 18446744073709551616 := by
  unfold toU64; omega

theorem toI64_toU64 (i : Int) (h1 : -9223372036854775808 ≤ i)
    (h2 : i < 9223372036854775808) : toI64 (toU64 i) = i := by
  unfold toI64 toU64
  split <;> omega

theorem crcStep_lt (c : Nat) (hc : c < 4294967296) : crcStep c < 4294967296 := by
  unfold crcStep
  split
  · have h1 : c / 2 < 2 ^ 32 := by omega
    have h2 : (0x82F63B78 : Nat) < 2 ^ 32 := by norm_num
    have := Nat.xor_lt_two_pow h1 h2
    simpa using this
  · omega

theorem crcByte_lt (c b : Nat) (hc : c < 4294967296) :
    crcByte c b < 4294967296 := by
  unfold crcByte
  have h0 : c ^^^ b % 256 < 4294967296 := by
    have h1 : c < 2 ^ 32 := by omega
    have h2 : b % 256 < 2 ^ 32 := by
      have : b % 256 < 256 := Nat.mod_lt _ (by norm_num)
      omega
    have := Nat.xor_lt_two_pow h1 h2
    simpa using this
  exact crcStep_lt _ (crcStep_lt _ (crcStep_lt _ (crcStep_lt _ (crcStep_lt _
    (crcStep_lt _ (crcStep_lt _ (crcStep_lt _ h0)))))))

theorem foldl_crcByte_lt (l : Bytes) :
    ∀ c, c < 4294967296 → l.foldl crcByte c < 4294967296 := by
  induction l with
  | nil => intro c hc; simpa using hc
  | cons b bs ih =>
      intro c hc
      simpa using ih (crcByte c b) (crcByte_lt c b hc)

theorem crc32c_lt (data : Bytes) : crc32c data < 4294967296 := by
  unfold crc32c
  have h1 : data.foldl crcByte 0xFFFFFFFF < 2 ^ 32 := by
    have := foldl_crcByte_lt data 0xFFFFFFFF (by norm_num)
    omega
  have h2 : (0xFFFFFFFF : Nat) < 2 ^ 32 := by norm_num
  have := Nat.xor_lt_two_pow h1 h2
  simpa using this

theorem crc32c_mod (l : Bytes) : crc32c l % 4294967296 = crc32c l :=
  Nat.mod_eq_of_lt (crc32c_lt l)

/-! ## Other shared helpers -/

/-- The configuration defaults (`config.DefaultConfig`): `max_key_bytes`
256, `max_value_bytes` 16 MiB, `wal_max_bytes` 256 MiB. -/
def defaultConfig : Config :=
  { MaxKeyBytes := 256, MaxValueBytes := 16777216, WALMaxBytes := 268435456 }

/-- Whether a store call returned without error. -/
def exceptIsOk : Except StoreError α → Bool
  | .ok _ => true
  | .error _ => false

/-- The version-rule of `store.go` (shared by `Set` and `Incr`): 1 when the
key is absent or its entry expired, old version + 1 when the entry is live. -/
def specNextVersion (s : Store) (nowMs : Int) (key : Bytes) : Nat :=
  match lookupKey s.data key with
  | some e => if e.IsExpired nowMs then 1 else e.Version + 1
  | none => 1

/-- A key that is missing from the map or whose entry is expired. -/
def absentOrExpired (s : Store) (nowMs : Int) (key : Bytes) : Bool :=
  match lookupKey s.data key with
  | none => true
  | some e => e.IsExpired nowMs

theorem lookup_insertKey (d : List (Bytes × Entry)) (k : Bytes) (e : Entry) :
    lookupKey (insertKey d k e) k = some e := by
  induction d with
  | nil => simp [insertKey, lookupKey]
  | cons p rest ih =>
      obtain ⟨k', e'⟩ := p
      by_cases h : k' = k <;> simp [insertKey, lookupKey, h, ih]

/-! ## IEEE-754 binary64 rounding lemmas (for `NeedsSnapshot`) -/

theorem rnHalfEven_intCast (m : ℤ) : rnHalfEven (m : ℚ) = m := by
  simp [rnHalfEven]

theorem rnHalfEven_le (x : ℚ) : (rnHalfEven x : ℚ) ≤ x + 1 / 2 := by
  have h1 := Int.floor_le x
  have h2 := Int.lt_floor_add_one x
  unfold rnHalfEven
  split
  · linarith
  · split
    · push_cast
      linarith
    · split
      · linarith
      · push_cast
        linarith

theorem le_rnHalfEven (x : ℚ) : x - 1 / 2 ≤ (rnHalfEven x : ℚ) := by
  have h1 := Int.floor_le x
  have h2 := Int.lt_floor_add_one x
  unfold rnHalfEven
  split
  · linarith
  · split
    · push_cast
      linarith
    · split
      · linarith
      · push_cast
        linarith

theorem rnHalfEven_nonneg (x : ℚ) (hx : 0 ≤ x) : 0 ≤ rnHalfEven x := by
  have h1 : 0 ≤ ⌊x⌋ := Int.floor_nonneg.2 hx
  unfold rnHalfEven
  split
  · exact h1
  · split
    · omega
    · split
      · exact h1
      · omega

/-- zpow cancellation helper. -/
theorem two_zpow_mul_cancel (e : ℤ) : (2 : ℚ) ^ (52 - e) * 2 ^ (e - 52) = 1 := by
  rw [← zpow_add₀ (by norm_num : (2 : ℚ) ≠ 0), show (52 : ℤ) - e + (e - 52) = 0 by omega,
    zpow_zero]

theorem half_mul_two_zpow (e : ℤ) : (1 / 2 : ℚ) * 2 ^ (e - 52) = 2 ^ (e - 53) := by
  rw [show (1 / 2 : ℚ) = 2 ^ (-1 : ℤ) by norm_num,
    ← zpow_add₀ (by norm_num : (2 : ℚ) ≠ 0)]
  congr 1
  omega

theorem float64round_pos {q : ℚ} (hq : 0 < q) :
    float64round q =
      (rnHalfEven (q * 2 ^ (52 - Int.log 2 q)) : ℚ) * 2 ^ (Int.log 2 q - 52) := by
  unfold float64round
  rw [if_neg hq.ne', if_pos hq]

theorem float64round_neg {q : ℚ} (hq : q < 0) :
    float64round q = -float64round (-q) := by
  unfold float64round
  rw [if_neg hq.ne, if_neg (not_lt.2 hq.le), if_neg (by simpa using hq.ne),
    if_pos (by linarith)]

theorem float64round_exact {q : ℚ} (hq : 0 < q) (m : ℤ)
    (hm : q * 2 ^ (52 - Int.log 2 q) = (m : ℚ)) : float64round q = q := by
  rw [float64round_pos hq, hm, rnHalfEven_intCast, ← hm, mul_assoc,
    two_zpow_mul_cancel, mul_one]

theorem float64round_le {q : ℚ} (hq : 0 < q) :
    float64round q ≤ q + 2 ^ (Int.log 2 q - 53) := by
  rw [float64round_pos hq]
  have h := rnHalfEven_le (q * 2 ^ (52 - Int.log 2 q))
  have hp : (0 : ℚ) < 2 ^ (Int.log 2 q - 52) := zpow_pos (by norm_num) _
  calc (rnHalfEven (q * 2 ^ (52 - Int.log 2 q)) : ℚ) * 2 ^ (Int.log 2 q - 52)
      ≤ (q * 2 ^ (52 - Int.log 2 q) + 1 / 2) * 2 ^ (Int.log 2 q - 52) :=
        mul_le_mul_of_nonneg_right h hp.le
    _ = q + 2 ^ (Int.log 2 q - 53) := by
        rw [add_mul, mul_assoc, two_zpow_mul_cancel, mul_one, half_mul_two_zpow]

theorem le_float64round {q : ℚ} (hq : 0 < q) :
    q - 2 ^ (Int.log 2 q - 53) ≤ float64round q := by
  rw [float64round_pos hq]
  have h := le_rnHalfEven (q * 2 ^ (52 - Int.log 2 q))
  have hp : (0 : ℚ) < 2 ^ (Int.log 2 q - 52) := zpow_pos (by norm_num) _
  calc q - 2 ^ (Int.log 2 q - 53)
      = (q * 2 ^ (52 - Int.log 2 q) - 1 / 2) * 2 ^ (Int.log 2 q - 52) := by
        rw [sub_mul, mul_assoc, two_zpow_mul_cancel, mul_one, half_mul_two_zpow]
    _ ≤ (rnHalfEven (q * 2 ^ (52 - Int.log 2 q)) : ℚ) * 2 ^ (Int.log 2 q - 52) :=
        mul_le_mul_of_nonneg_right h hp.le

theorem float64round_nonpos {q : ℚ} (hq : q ≤ 0) : float64round q ≤ 0 := by
  rcases eq_or_lt_of_le hq with h | h
  · simp [float64round, h]
  · rw [float64round_neg h, neg_nonpos]
    rw [float64round_pos (by linarith : (0 : ℚ) < -q)]
    have hm : 0 ≤ rnHalfEven (-q * 2 ^ (52 - Int.log 2 (-q))) :=
      rnHalfEven_nonneg _
        (mul_nonneg (by linarith) (zpow_pos (by norm_num) _).le)
    have hp : (0 : ℚ) ≤ 2 ^ (Int.log 2 (-q) - 52) := (zpow_pos (by norm_num) _).le
    exact mul_nonneg (by exact_mod_cast hm) hp

theorem two_zpow_log_le {q : ℚ} (hq : 0 < q) : (2 : ℚ) ^ Int.log 2 q ≤ q := by
  have := Int.zpow_log_le_self (b := 2) (R := ℚ) (by norm_num) hq
  simpa using this

theorem lt_two_zpow_succ_log (q : ℚ) : q < (2 : ℚ) ^ (Int.log 2 q + 1) := by
  have := Int.lt_zpow_succ_log_self (b := 2) (R := ℚ) (by norm_num) q
  simpa using this

theorem le_log2_of_zpow_le {q : ℚ} {e : ℤ} (hq : 0 < q)
    (h : (2 : ℚ) ^ e ≤ q) : e ≤ Int.log 2 q := by
  have := (Int.zpow_le_iff_le_log (b := 2) (R := ℚ) (by norm_num) hq).1
    (by simpa using h)
  exact this

theorem log2_lt_of_lt_zpow {q : ℚ} {e : ℤ} (hq : 0 < q)
    (h : q < (2 : ℚ) ^ e) : Int.log 2 q < e := by
  have := (Int.lt_zpow_iff_log_lt (b := 2) (R := ℚ) (by norm_num) hq).1
    (by simpa using h)
  exact this

theorem log2_unique {q : ℚ} {e : ℤ} (hq : 0 < q) (h1 : (2 : ℚ) ^ e ≤ q)
    (h2 : q < (2 : ℚ) ^ (e + 1)) : Int.log 2 q = e := by
  have ha := le_log2_of_zpow_le hq h1
  have hb := log2_lt_of_lt_zpow hq h2
  omega

theorem float64round_int_pos {n : ℤ} (h0 : 0 < n)
    (h53 : n ≤ 9007199254740992) : float64round (n : ℚ) = n := by
  have hq : (0 : ℚ) < (n : ℚ) := by exact_mod_cast h0
  have he0 : 0 ≤ Int.log 2 (n : ℚ) :=
    le_log2_of_zpow_le hq (by rw [zpow_zero]; exact_mod_cast h0)
  have he53 : Int.log 2 (n : ℚ) ≤ 53 := by
    have h1 : (2 : ℚ) ^ Int.log 2 (n : ℚ) ≤ (2 : ℚ) ^ (53 : ℤ) := by
      refine le_trans (two_zpow_log_le hq) ?_
      have : ((n : ℚ)) ≤ ((9007199254740992 : ℤ) : ℚ) := by exact_mod_cast h53
      refine le_trans this ?_
      norm_num
    exact (zpow_right_strictMono₀ (by norm_num : (1 : ℚ) < 2)).le_iff_le.1 h1
  by_cases h52 : Int.log 2 (n : ℚ) ≤ 52
  · refine float64round_exact hq (n * 2 ^ (52 - Int.log 2 (n : ℚ)).toNat) ?_
    set k := (52 - Int.log 2 (n : ℚ)).toNat with hkdef
    have hke : (52 : ℤ) - Int.log 2 (n : ℚ) = (k : ℤ) := by omega
    rw [hke, zpow_natCast]
    push_cast
    ring
  · have he : Int.log 2 (n : ℚ) = 53 := by omega
    have hn : (n : ℚ) = 9007199254740992 := by
      have h1 := two_zpow_log_le hq
      rw [he] at h1
      have h2 : (2 : ℚ) ^ (53 : ℤ) = 9007199254740992 := by norm_num
      rw [h2] at h1
      have h3 : ((n : ℚ)) ≤ 9007199254740992 := by exact_mod_cast h53
      linarith
    refine float64round_exact hq 4503599627370496 ?_
    rw [he, hn]
    norm_num

theorem float64round_int {n : ℤ} (h1 : -9007199254740992 ≤ n)
    (h2 : n ≤ 9007199254740992) : float64round (n : ℚ) = n := by
  rcases lt_trichotomy n 0 with hn | hn | hn
  · have hcast : -((n : ℚ)) = ((-n : ℤ) : ℚ) := by push_cast; ring
    rw [float64round_neg (by exact_mod_cast hn), hcast,
      float64round_int_pos (by omega) (by omega)]
    push_cast
    ring
  · subst hn
    simp [float64round]
  · exact float64round_int_pos hn h2

theorem float_ratio_lt_half_iff (live dead : ℤ)
    (hd0 : 0 < dead) (hd : dead ≤ 9007199254740992) :
    (float64round ((live : ℚ) / (dead : ℚ)) < 1 / 2 ↔
      (live : ℚ) / (dead : ℚ) < 1 / 2) := by
  have hdq : (0 : ℚ) < (dead : ℚ) := by exact_mod_cast hd0
  rcases le_or_lt live 0 with hl | hl
  · have hq0 : (live : ℚ) / (dead : ℚ) ≤ 0 :=
      div_nonpos_iff.2 (Or.inr ⟨by exact_mod_cast hl, hdq.le⟩)
    exact iff_of_true (lt_of_le_of_lt (float64round_nonpos hq0) (by norm_num))
      (by linarith)
  · have hlq : (0 : ℚ) < (live : ℚ) := by exact_mod_cast hl
    have hq0 : 0 < (live : ℚ) / (dead : ℚ) := div_pos hlq hdq
    rcases lt_trichotomy (2 * live) dead with h2 | h2 | h2
    · have hqh : (live : ℚ) / (dead : ℚ) < 1 / 2 := by
        rw [div_lt_iff₀ hdq]
        have hc : (2 * (live : ℚ)) < (dead : ℚ) := by exact_mod_cast h2
        linarith
      refine iff_of_true ?_ hqh
      have he1 : Int.log 2 ((live : ℚ) / (dead : ℚ)) ≤ -1 := by
        have := log2_lt_of_lt_zpow hq0
          (show (live : ℚ) / (dead : ℚ) < (2 : ℚ) ^ (0 : ℤ) by
            rw [zpow_zero]; linarith)
        omega
      rcases eq_or_lt_of_le hd with hde | hdlt
      · have heq : float64round ((live : ℚ) / (dead : ℚ)) =
            (live : ℚ) / (dead : ℚ) := by
          refine float64round_exact hq0
            (live * 2 ^ (-1 - Int.log 2 ((live : ℚ) / (dead : ℚ))).toNat) ?_
          set e := Int.log 2 ((live : ℚ) / (dead : ℚ)) with hedef
          set k := (-1 - e).toNat with hkdef
          have hke : (52 : ℤ) - e = (k : ℤ) + 53 := by omega
          rw [hke]
          have hdq53 : (dead : ℚ) = 2 ^ (53 : ℕ) := by
            have : ((dead : ℤ) : ℚ) = ((9007199254740992 : ℤ) : ℚ) := by
              exact_mod_cast hde
            rw [this]
            norm_num
          rw [hdq53, zpow_add₀ (by norm_num : (2 : ℚ) ≠ 0), zpow_natCast]
          have h53 : ((2 : ℚ) ^ (53 : ℤ)) = 2 ^ (53 : ℕ) := by norm_num
          rw [h53]
          push_cast
          field_simp
          ring
        rw [heq]
        exact hqh
      · have hb := float64round_le hq0
        have h54 : (2 : ℚ) ^ (Int.log 2 ((live : ℚ) / (dead : ℚ)) - 53) ≤
            2 ^ (-54 : ℤ) :=
          zpow_le_zpow_right₀ (by norm_num) (by omega)
        have hslack : (live : ℚ) / (dead : ℚ) ≤ 1 / 2 - 1 / (2 * (dead : ℚ)) := by
          rw [div_le_iff₀ hdq]
          have h2' : (2 * live : ℤ) ≤ dead - 1 := by omega
          have hc : 2 * (live : ℚ) ≤ (dead : ℚ) - 1 := by exact_mod_cast h2'
          have hexp : (1 / 2 - 1 / (2 * (dead : ℚ))) * (dead : ℚ) =
              (dead : ℚ) / 2 - 1 / 2 := by
            field_simp
            ring
          rw [hexp]
          linarith
        have hddq : (2 : ℚ) ^ (-54 : ℤ) < 1 / (2 * (dead : ℚ)) := by
          have hdlt' : (dead : ℚ) < 9007199254740992 := by exact_mod_cast hdlt
          have h2d : (0 : ℚ) < 2 * (dead : ℚ) := by linarith
          rw [show (2 : ℚ) ^ (-54 : ℤ) = 1 / 18014398509481984 by norm_num,
            div_lt_div_iff₀ (by norm_num) h2d]
          linarith
        linarith
    · have hqe : (live : ℚ) / (dead : ℚ) = 1 / 2 := by
        rw [div_eq_iff hdq.ne']
        have hc : (dead : ℚ) = 2 * (live : ℚ) := by exact_mod_cast h2.symm
        linarith
      have heq : float64round ((live : ℚ) / (dead : ℚ)) =
          (live : ℚ) / (dead : ℚ) := by
        refine float64round_exact hq0 4503599627370496 ?_
        have he : Int.log 2 ((live : ℚ) / (dead : ℚ)) = -1 := by
          refine log2_unique hq0 ?_ ?_
          · rw [hqe]
            norm_num
          · rw [hqe]
            norm_num
        rw [he, hqe]
        norm_num
      rw [heq, hqe]
    · have hqh : 1 / 2 < (live : ℚ) / (dead : ℚ) := by
        rw [lt_div_iff₀ hdq]
        have h2' : (dead : ℤ) + 1 ≤ 2 * live := by omega
        have hc : (dead : ℚ) + 1 ≤ 2 * (live : ℚ) := by exact_mod_cast h2'
        linarith
      refine iff_of_false ?_ (by linarith)
      rw [not_lt]
      have hb := le_float64round hq0
      have hem1 : -1 ≤ Int.log 2 ((live : ℚ) / (dead : ℚ)) :=
        le_log2_of_zpow_le hq0
          (by rw [show (2 : ℚ) ^ (-1 : ℤ) = 1 / 2 by norm_num]; linarith)
      rcases eq_or_lt_of_le hem1 with heq | hgt
      · have h54 : (2 : ℚ) ^ (Int.log 2 ((live : ℚ) / (dead : ℚ)) - 53) =
            2 ^ (-54 : ℤ) := by
          rw [← heq]
          norm_num
        have hq2 : 1 / 2 + 1 / (2 * (dead : ℚ)) ≤ (live : ℚ) / (dead : ℚ) := by
          rw [le_div_iff₀ hdq]
          have h2' : (dead : ℤ) + 1 ≤ 2 * live := by omega
          have hc : (dead : ℚ) + 1 ≤ 2 * (live : ℚ) := by exact_mod_cast h2'
          have hexp : (1 / 2 + 1 / (2 * (dead : ℚ))) * (dead : ℚ) =
              (dead : ℚ) / 2 + 1 / 2 := by
            field_simp
            ring
          rw [hexp]
          linarith
        have hdd : (2 : ℚ) ^ (-54 : ℤ) ≤ 1 / (2 * (dead : ℚ)) := by
          have hd' : (dead : ℚ) ≤ 9007199254740992 := by exact_mod_cast hd
          have h2d : (0 : ℚ) < 2 * (dead : ℚ) := by linarith
          rw [show (2 : ℚ) ^ (-54 : ℤ) = 1 / 18014398509481984 by norm_num,
            div_le_div_iff₀ (by norm_num) h2d]
          linarith
        rw [h54] at hb
        linarith
      · have he0 : 0 ≤ Int.log 2 ((live : ℚ) / (dead : ℚ)) := by omega
        have hqe' := two_zpow_log_le hq0
        have h1 : (1 : ℚ) ≤ 2 ^ Int.log 2 ((live : ℚ) / (dead : ℚ)) :=
          one_le_zpow₀ (by norm_num) he0
        have hsplit : (2 : ℚ) ^ (Int.log 2 ((live : ℚ) / (dead : ℚ)) - 53) =
            2 ^ Int.log 2 ((live : ℚ) / (dead : ℚ)) * 2 ^ (-53 : ℤ) := by
          rw [← zpow_add₀ (by norm_num : (2 : ℚ) ≠ 0)]
          congr 1
        have h253 : (2 : ℚ) ^ (-53 : ℤ) = 1 / 9007199254740992 := by norm_num
        rw [hsplit, h253] at hb
        have hkey : (0 : ℚ) ≤
            (2 ^ Int.log 2 ((live : ℚ) / (dead : ℚ)) - 1) *
              (1 - 1 / 9007199254740992) :=
          mul_nonneg (by linarith) (by norm_num)
        nlinarith [hb, hqe', hkey]

/-! ## Claim theorems -/

/-- C5: for every WAL record whose fields fit the wire layout (type in
{0,1,2}, key and value lengths representable as u32, expiry in the i64
range, version representable as u64), deserializing the serialized bytes
yields the record back field-by-field with the stream exhausted, and the
serialized bytes are magic ++ format-version ++ body ++ CRC where the
CRC32C (Castagnoli, `crc32c`) is computed over exactly `walRecordBody`,
the bytes from the type field through the end of the value. -/
theorem c5_wal_serialize_roundtrip_crc (r : WALRecord) (ht : r.typ ≤ 2)
    (hk : r.Key.length < 4294967296) (hv : r.Value.length < 4294967296)
    (he1 : -9223372036854775808 ≤ r.ExpiryMs)
    (he2 : r.ExpiryMs < 9223372036854775808)
    (hw : r.Version < 18446744073709551616) :
    ReadRecord (serializeRecord r) = .ok (r, []) ∧
    serializeRecord r = le32 WALMagic ++ le16 WALVersion ++ walRecordBody r ++
      le32 (crc32c (walRecordBody r)) := by
  refine ⟨?_, rfl⟩
  have htm : r.typ % 256 = r.typ := Nat.mod_eq_of_lt (by omega)
  simp only [serializeRecord, walRecordBody,
    Nat.mod_eq_of_lt hk, Nat.mod_eq_of_lt hv, Nat.mod_eq_of_lt hw, htm]
  norm_num [le32, le16, le64, WALMagic, WALVersion, List.cons_append,
    List.append_assoc]
  simp only [ReadRecord, readBytes7]
  rw [show de32 87 80 83 79 = WALMagic from by norm_num [de32, WALMagic],
    show de16 1 0 = WALVersion from by norm_num [de16, WALVersion]]
  simp only [ne_eq, not_true_eq_false, if_false, ite_false]
  simp only [readBytes8, readBytes16, de32_le32, de64_le64,
    Nat.mod_eq_of_lt hk, Nat.mod_eq_of_lt hv, Nat.mod_eq_of_lt hw,
    Nat.mod_eq_of_lt (toU64_lt r.ExpiryMs),
    toI64_toU64 r.ExpiryMs he1 he2, readBytes_append]
  simp only [readBytes4, de32_le32, crc32c_mod]
  norm_num [le32, le64, List.cons_append, List.append_assoc]

/-- A sample WAL record (DEL tombstone layout with an empty value). -/
def walRec0 : WALRecord :=
  { typ := 1, Key := [107, 101, 121], Value := [], ExpiryMs := -1,
    Version := 42 }

/-- Witness for C5 at a concrete record. -/
theorem c5_witness :
    (walRec0.typ ≤ 2 ∧ walRec0.Key.length < 4294967296 ∧
      walRec0.Value.length < 4294967296 ∧
      -9223372036854775808 ≤ walRec0.ExpiryMs ∧
      walRec0.ExpiryMs < 9223372036854775808 ∧
      walRec0.Version < 18446744073709551616) ∧
    ReadRecord (serializeRecord walRec0) = .ok (walRec0, []) :=
  ⟨⟨by decide, by decide, by decide, by decide, by decide, by decide⟩,
    (c5_wal_serialize_roundtrip_crc walRec0 (by decide) (by decide)
      (by decide) (by decide) (by decide) (by decide)).1⟩

/-- C1: the spec says `KeyInvalid` surfaces on the wire as `BADREQ`, but
every handler maps `ErrKeyInvalid` to `ERR INTERNAL`: `handleSet` through
its default switch branch, and `handleGet`/`handleExpire`/`handleIncr`
through their non-`KeyNotFound` else branch.  At the key `[0x01]` (a C0
control byte, forbidden by `validateKey`) all four commands answer
`ERR INTERNAL`, which differs from `ERR BADREQ`. -/
theorem c1_invalid_key_reported_internal :
    (handleSet {} defaultConfig 0 [1] [] {}).1 = .err "INTERNAL" ∧
    (handleGet {} 0 [1]).1 = .err "INTERNAL" ∧
    (handleExpire {} 0 [1] 1000).1 = .err "INTERNAL" ∧
    (handleIncr {} 0 [1] 1).1 = .err "INTERNAL" ∧
    Resp.err "INTERNAL" ≠ Resp.err "BADREQ" :=
  ⟨rfl, rfl, rfl, rfl, by decide⟩

/-- C4: `PersistentStore.Set` is not nil-dereference free: a SET whose
`abs_expiry_ms` is positive but already in the past (here expiry 5 at
`now = 10`) inserts an already-expired entry; the `Get` performed right
after the in-memory `Set` lazily deletes it and returns no entry, and the
subsequent read of `entry.ExpiryMs` is a nil-pointer dereference. -/
theorem c4_persistent_set_nil_deref :
    PersistentStore.Set {} defaultConfig 10 [107] [118]
      { AbsoluteExpiryMs := 5 } = .nilDereference := rfl

/-- C9 counterexample: at `live_bytes = 2^53 + 3` and
`dead_bytes = 2^54 + 7` the exact ratio is below 0.5 (2·live = dead − 1),
but the float64 conversions round the operands to `2^53 + 4` and
`2^54 + 8`, whose quotient is exactly 0.5, so `NeedsSnapshot` returns
false where the claim's iff demands true. -/
theorem c9_counterexample :
    NeedsSnapshot defaultConfig 0 0 0 9007199254740995 18014398509481991 =
      false ∧
    (18014398509481991 : Int) > 0 ∧
    (9007199254740995 : ℚ) / (18014398509481991 : ℚ) < 1 / 2 ∧
    false ≠ true := by
  have hlog1 : Int.log 2 (9007199254740995 : ℚ) = 53 :=
    log2_unique (by norm_num) (by norm_num) (by norm_num)
  have hfl1 : ⌊(9007199254740995 : ℚ) * 2 ^ ((52 : ℤ) - 53)⌋ =
      4503599627370497 := by
    rw [show (52 : ℤ) - 53 = -1 by norm_num, Int.floor_eq_iff]
    norm_num
  have hrn1 : rnHalfEven ((9007199254740995 : ℚ) * 2 ^ ((52 : ℤ) - 53)) =
      4503599627370498 := by
    unfold rnHalfEven
    rw [hfl1, show (52 : ℤ) - 53 = -1 by norm_num]
    norm_num
  have hflive : float64round (9007199254740995 : ℚ) = 9007199254740996 := by
    rw [float64round_pos (by norm_num), hlog1, hrn1]
    norm_num
  have hlog2 : Int.log 2 (18014398509481991 : ℚ) = 54 :=
    log2_unique (by norm_num) (by norm_num) (by norm_num)
  have hfl2 : ⌊(18014398509481991 : ℚ) * 2 ^ ((52 : ℤ) - 54)⌋ =
      4503599627370497 := by
    rw [show (52 : ℤ) - 54 = -2 by norm_num, Int.floor_eq_iff]
    norm_num
  have hrn2 : rnHalfEven ((18014398509481991 : ℚ) * 2 ^ ((52 : ℤ) - 54)) =
      4503599627370498 := by
    unfold rnHalfEven
    rw [hfl2, show (52 : ℤ) - 54 = -2 by norm_num]
    norm_num
  have hfdead : float64round (18014398509481991 : ℚ) = 18014398509481992 := by
    rw [float64round_pos (by norm_num), hlog2, hrn2]
    norm_num
  have hq12 : (9007199254740996 : ℚ) / 18014398509481992 = 1 / 2 := by
    norm_num
  have hloghalf : Int.log 2 ((1 : ℚ) / 2) = -1 :=
    log2_unique (by norm_num) (by norm_num) (by norm_num)
  have hfhalf : float64round ((1 : ℚ) / 2) = 1 / 2 := by
    refine float64round_exact (by norm_num) 4503599627370496 ?_
    rw [hloghalf]
    norm_num
  refine ⟨?_, by norm_num, by norm_num, by decide⟩
  unfold NeedsSnapshot
  rw [if_neg (by norm_num [defaultConfig])]
  rw [if_neg, if_neg (by norm_num)]
  push_cast
  rw [hflive, hfdead, hq12, hfhalf]
  norm_num

/-- C9 (amended): `NeedsSnapshot` returns true iff the WAL exceeds
`wal_max_bytes`, or there are dead bytes and the live/dead ratio is below
0.5, or more than 10 minutes have elapsed since the last snapshot — where
for `live_bytes` and `dead_bytes` of magnitude at most 2^53 (the range on
which int64 → float64 conversion is exact) the code's float64 ratio test
coincides with the exact rational comparison `live/dead < 1/2`; outside
that range the float64 arithmetic can disagree with the exact ratio. -/
theorem c9_needs_snapshot_iff (cfg : Config)
    (lastMs nowMs walSize live dead : Int)
    (hl1 : -9007199254740992 ≤ live) (hl2 : live ≤ 9007199254740992)
    (hd : dead ≤ 9007199254740992) :
    NeedsSnapshot cfg lastMs nowMs walSize live dead = true ↔
      (walSize > cfg.WALMaxBytes ∨
        (dead > 0 ∧ (live : ℚ) / (dead : ℚ) < 1 / 2) ∨
        nowMs - lastMs > 10 * 60 * 1000) := by
  have hmid : (dead > 0 ∧
      float64round (float64round (live : ℚ) / float64round (dead : ℚ)) <
        1 / 2) ↔ (dead > 0 ∧ (live : ℚ) / (dead : ℚ) < 1 / 2) := by
    constructor
    · rintro ⟨hd0, hflt⟩
      rw [float64round_int hl1 hl2, float64round_int (by omega) hd] at hflt
      exact ⟨hd0, (float_ratio_lt_half_iff live dead hd0 hd).1 hflt⟩
    · rintro ⟨hd0, hlt⟩
      refine ⟨hd0, ?_⟩
      rw [float64round_int hl1 hl2, float64round_int (by omega) hd]
      exact (float_ratio_lt_half_iff live dead hd0 hd).2 hlt
  unfold NeedsSnapshot
  simp only [hmid]
  repeat' split
  all_goals simp_all

/-- Witness for C9 (amended) at `live = 1`, `dead = 3`. -/
theorem c9_witness :
    ((-9007199254740992 : Int) ≤ 1 ∧ (1 : Int) ≤ 9007199254740992 ∧
      (3 : Int) ≤ 9007199254740992) ∧
    (NeedsSnapshot defaultConfig 0 0 0 1 3 = true ↔
      ((0 : Int) > defaultConfig.WALMaxBytes ∨
        ((3 : Int) > 0 ∧ (1 : ℚ) / (3 : ℚ) < 1 / 2) ∨
        (0 : Int) - 0 > 10 * 60 * 1000)) :=
  ⟨⟨by decide, by decide, by decide⟩,
    c9_needs_snapshot_iff defaultConfig 0 0 0 1 3 (by decide) (by decide)
      (by decide)⟩

/-- The live entry `"v"` at version 3, no expiry. -/
def c2Entry : Entry := { Value := [118], Version := 3, ExpiryMs := -1, SizeBytes := 1 }

/-- A store holding the live entry `k ↦ "v"` at version 3, no expiry. -/
def c2Store : Store := { data := [([107], c2Entry)] }

/-- C2 counterexample: a successful EXPIRE on a live key at version 3
leaves the version at 3 — `Store.Expire` never increments the version, so
the new version is not old + 1 as the claim states. -/
theorem c2_counterexample :
    (Store.Expire c2Store 0 [107] 1000).1 = .ok () ∧
    (lookupKey (Store.Expire c2Store 0 [107] 1000).2.data [107]).map
      Entry.Version = some 3 ∧
    some 3 ≠ some (3 + 1) :=
  ⟨rfl, rfl, by decide⟩

/-- C2 (amended): every successful EXPIRE on a live key mutates only the
entry's expiry_ms in place (value, version and size unchanged, the version
is not advanced), setting it to `now + ttl` and pushing a heap node. -/
theorem c2_expire_mutates_only_expiry (s : Store) (nowMs ttlMs : Int)
    (key : Bytes) (e : Entry) (hval : validateKey key = true)
    (hl : lookupKey s.data key = some e) (hx : e.IsExpired nowMs = false) :
    Store.Expire s nowMs key ttlMs =
      (.ok (), { s with
        data := insertKey s.data key
          { Value := e.Value, Version := e.Version,
            ExpiryMs := nowMs + ttlMs, SizeBytes := e.SizeBytes },
        expiryHeap := s.expiryHeap ++ [(key, nowMs + ttlMs)] }) := by
  simp [Store.Expire, hval, hl, hx]

/-- Witness for C2 (amended) on `c2Store`. -/
theorem c2_witness :
    validateKey [107] = true ∧
    lookupKey c2Store.data [107] = some c2Entry ∧
    Entry.IsExpired c2Entry 0 = false ∧
    Store.Expire c2Store 0 [107] 1000 =
      (.ok (), { c2Store with
        data := insertKey c2Store.data [107]
          { Value := c2Entry.Value, Version := c2Entry.Version,
            ExpiryMs := 0 + 1000, SizeBytes := c2Entry.SizeBytes },
        expiryHeap := c2Store.expiryHeap ++ [([107], 0 + 1000)] }) :=
  ⟨by decide, by decide, by decide,
    c2_expire_mutates_only_expiry c2Store 0 1000 [107] c2Entry
      (by decide) (by decide) (by decide)⟩

/-- State after `SET k "a" PXAT 10` at `now = 0` on an empty store. -/
def c3s1 : Store :=
  (Store.Set {} defaultConfig 0 [107] [97] { AbsoluteExpiryMs := 10 }).2

/-- State after a further `SET k "b" PXAT 10` at `now = 1`. -/
def c3s2 : Store :=
  (Store.Set c3s1 defaultConfig 1 [107] [98] { AbsoluteExpiryMs := 10 }).2

/-- C3 counterexample: three successful SETs of the same key yield the
version sequence 1, 2, 1 — the third SET happens at `now = 20`, after the
entry (absolute expiry 10) has expired, and re-creates it at version 1 —
so the version history is not strictly increasing across expiry and
re-creation. -/
theorem c3_counterexample :
    (Store.Set {} defaultConfig 0 [107] [97] { AbsoluteExpiryMs := 10 }).1 =
      .ok 1 ∧
    (Store.Set c3s1 defaultConfig 1 [107] [98] { AbsoluteExpiryMs := 10 }).1 =
      .ok 2 ∧
    (Store.Set c3s2 defaultConfig 20 [107] [99] {}).1 = .ok 1 ∧
    ¬ List.Pairwise (fun a b => a < b) [1, 2, 1] :=
  ⟨rfl, rfl, rfl, by simp⟩

/-- C3 (amended): the per-key version after each successful mutation
follows the lifecycle rule `specNextVersion`: SET and INCR/DECR set the
version to old + 1 when the prior entry is live and to 1 when the key is
absent or expired (so versions are strictly increasing only within one
live lifetime and restart at 1 on re-creation), and EXPIRE leaves the
version unchanged. -/
theorem c3_version_rule (cfg : Config) (s : Store) (nowMs : Int)
    (key value : Bytes) (opts : SetOptions) (delta ttlMs : Int)
    (hk : key.length ≤ cfg.MaxKeyBytes) (hval : validateKey key = true)
    (hv : value.length ≤ cfg.MaxValueBytes) (hnx : opts.NX = false)
    (hxx : opts.XX = false) (hcv : opts.CheckVersion = false)
    (hincr : exceptIsOk (Store.Incr s nowMs key delta).1 = true) :
    (Store.Set s cfg nowMs key value opts).1 =
      .ok (specNextVersion s nowMs key) ∧
    (lookupKey (Store.Incr s nowMs key delta).2.data key).map Entry.Version =
      some (specNextVersion s nowMs key) ∧
    (∀ e, lookupKey s.data key = some e → e.IsExpired nowMs = false →
      (lookupKey (Store.Expire s nowMs key ttlMs).2.data key).map
        Entry.Version = some e.Version) := by
  refine ⟨?_, ?_, ?_⟩
  · simp only [Store.Set, Nat.not_lt.2 hk, Nat.not_lt.2 hv, hval, hnx, hxx,
      hcv, specNextVersion]
    cases hL : lookupKey s.data key with
    | none => simp [hL]
    | some e => cases hx : e.IsExpired nowMs <;> simp [hL, hx]
  · cases hL : lookupKey s.data key with
    | none => simp [Store.Incr, hval, hL, lookup_insertKey, specNextVersion]
    | some e =>
        cases hx : e.IsExpired nowMs with
        | true =>
            simp [Store.Incr, hval, hL, hx, lookup_insertKey, specNextVersion]
        | false =>
            cases hp : parseInt64 e.Value with
            | none =>
                exfalso
                simp [Store.Incr, hval, hL, hx, hp, exceptIsOk] at hincr
            | some cur =>
                simp [Store.Incr, hval, hL, hx, hp, lookup_insertKey,
                  specNextVersion]
  · intro e hL hx
    simp [Store.Expire, hval, hL, hx, lookup_insertKey]

/-- The live entry `"5"` at version 3, no expiry. -/
def c3Entry : Entry := { Value := [53], Version := 3, ExpiryMs := -1, SizeBytes := 1 }

/-- A store holding the live entry `k ↦ "5"` at version 3, no expiry. -/
def c3Store : Store := { data := [([107], c3Entry)] }

/-- Witness for C3 (amended) on `c3Store` (live entry `k ↦ "5"`). -/
theorem c3_witness :
    (Store.Set c3Store defaultConfig 0 [107] [119] {}).1 =
      .ok (specNextVersion c3Store 0 [107]) ∧
    (lookupKey (Store.Incr c3Store 0 [107] 5).2.data [107]).map
      Entry.Version = some (specNextVersion c3Store 0 [107]) ∧
    (lookupKey (Store.Expire c3Store 0 [107] 1000).2.data [107]).map
      Entry.Version = some 3 :=
  ⟨(c3_version_rule defaultConfig c3Store 0 [107] [119] {} 5 1000 (by decide)
      (by decide) (by decide) (by decide) (by decide) (by decide)
      (by decide)).1,
   (c3_version_rule defaultConfig c3Store 0 [107] [119] {} 5 1000 (by decide)
      (by decide) (by decide) (by decide) (by decide) (by decide)
      (by decide)).2.1,
   (c3_version_rule defaultConfig c3Store 0 [107] [119] {} 5 1000 (by decide)
      (by decide) (by decide) (by decide) (by decide) (by decide)
      (by decide)).2.2
     { Value := [53], Version := 3, ExpiryMs := -1, SizeBytes := 1 }
     (by decide) (by decide)⟩

/-- A store holding the live entry `k ↦ "v"` at version 1, no expiry. -/
def c6Store : Store :=
  { data := [([107], { Value := [118], Version := 1, ExpiryMs := -1, SizeBytes := 1 })] }

/-- C6 counterexample: with `NX` and `VER 2` both set against a live entry
at version 1, `Store.Set` fails with `KeyExists` (the NX check runs first),
not with `VersionMismatch` as the claim's check_version clause demands. -/
theorem c6_counterexample :
    (Store.Set c6Store defaultConfig 0 [107] [119]
      { NX := true, CheckVersion := true, Version := 2 }).1 =
      .error .keyExists ∧
    StoreError.keyExists ≠ StoreError.versionMismatch :=
  ⟨rfl, by decide⟩

/-- C6 (amended): for keys and values that pass the size and validity
checks (which run first), `Store.Set` behaves as specified: `nx` against a
live entry fails with `KeyExists`; `xx` against an absent-or-expired key
fails with `KeyNotFound`; `check_version` against a live entry with a
different version fails with `VersionMismatch` provided `nx` is not also
set (the NX check precedes the version check and wins); and an
absent-or-expired key with `xx` unset is written with new version 1, the
expired entry being treated exactly as absent. -/
theorem c6_set_guards (cfg : Config) (s : Store) (nowMs : Int)
    (key value : Bytes) (opts : SetOptions)
    (hk : key.length ≤ cfg.MaxKeyBytes) (hval : validateKey key = true)
    (hv : value.length ≤ cfg.MaxValueBytes) :
    (∀ e, lookupKey s.data key = some e → e.IsExpired nowMs = false →
      opts.NX = true →
      (Store.Set s cfg nowMs key value opts).1 = .error .keyExists) ∧
    (absentOrExpired s nowMs key = true → opts.XX = true →
      (Store.Set s cfg nowMs key value opts).1 = .error .keyNotFound) ∧
    (∀ e, lookupKey s.data key = some e → e.IsExpired nowMs = false →
      opts.NX = false → opts.CheckVersion = true →
      e.Version ≠ opts.Version →
      (Store.Set s cfg nowMs key value opts).1 = .error .versionMismatch) ∧
    (absentOrExpired s nowMs key = true → opts.XX = false →
      (Store.Set s cfg nowMs key value opts).1 = .ok 1) := by
  refine ⟨?_, ?_, ?_, ?_⟩
  · intro e hL hx hnx
    simp [Store.Set, Nat.not_lt.2 hk, Nat.not_lt.2 hv, hval, hL, hx, hnx]
  · intro habs hxx
    cases hL : lookupKey s.data key with
    | none =>
        simp [Store.Set, Nat.not_lt.2 hk, Nat.not_lt.2 hv, hval, hL, hxx]
    | some e =>
        have hx : e.IsExpired nowMs = true := by
          simpa [absentOrExpired, hL] using habs
        simp [Store.Set, Nat.not_lt.2 hk, Nat.not_lt.2 hv, hval, hL, hx, hxx]
  · intro e hL hx hnx hcv hver
    simp [Store.Set, Nat.not_lt.2 hk, Nat.not_lt.2 hv, hval, hL, hx, hnx,
      hcv, hver]
  · intro habs hxx
    cases hL : lookupKey s.data key with
    | none =>
        simp [Store.Set, Nat.not_lt.2 hk, Nat.not_lt.2 hv, hval, hL, hxx]
    | some e =>
        have hx : e.IsExpired nowMs = true := by
          simpa [absentOrExpired, hL] using habs
        simp [Store.Set, Nat.not_lt.2 hk, Nat.not_lt.2 hv, hval, hL, hx, hxx]

/-- Witness for C6 (amended): the four guard outcomes at concrete inputs
(live entry at version 1 for NX and VER, empty store for XX and the fresh
write). -/
theorem c6_witness :
    (Store.Set c6Store defaultConfig 0 [107] [119] { NX := true }).1 =
      .error .keyExists ∧
    (Store.Set {} defaultConfig 0 [107] [119] { XX := true }).1 =
      .error .keyNotFound ∧
    (Store.Set c6Store defaultConfig 0 [107] [119]
      { CheckVersion := true, Version := 2 }).1 = .error .versionMismatch ∧
    (Store.Set {} defaultConfig 0 [107] [119] {}).1 = .ok 1 :=
  ⟨(c6_set_guards defaultConfig c6Store 0 [107] [119] { NX := true }
      (by decide) (by decide) (by decide)).1
      { Value := [118], Version := 1, ExpiryMs := -1, SizeBytes := 1 }
      (by decide) (by decide) rfl,
   (c6_set_guards defaultConfig {} 0 [107] [119] { XX := true }
      (by decide) (by decide) (by decide)).2.1 (by decide) rfl,
   (c6_set_guards defaultConfig c6Store 0 [107] [119]
      { CheckVersion := true, Version := 2 }
      (by decide) (by decide) (by decide)).2.2.1
      { Value := [118], Version := 1, ExpiryMs := -1, SizeBytes := 1 }
      (by decide) (by decide) rfl rfl (by decide),
   (c6_set_guards defaultConfig {} 0 [107] [119] {}
      (by decide) (by decide) (by decide)).2.2.2 (by decide) rfl⟩

/-- C7: `Store.Incr` semantics for a valid key: an absent or expired key
counts from 0; a live value must parse as a signed 64-bit base-10 integer
(`parseInt64`), otherwise the call fails with `NotInteger`; on success the
new value is the 64-bit sum `int64add current delta`, stored as its
decimal ASCII representation (`formatInt`) with `expiry_ms` reset to −1,
and the version is 1 when the prior entry was absent or expired, else the
old version + 1. -/
theorem c7_incr_semantics (s : Store) (nowMs : Int) (key : Bytes)
    (delta : Int) (hval : validateKey key = true) :
    (lookupKey s.data key = none →
      (Store.Incr s nowMs key delta).1 = .ok (int64add 0 delta) ∧
      lookupKey (Store.Incr s nowMs key delta).2.data key =
        some { Value := formatInt (int64add 0 delta), Version := 1,
               ExpiryMs := -1,
               SizeBytes := (formatInt (int64add 0 delta)).length }) ∧
    (∀ e, lookupKey s.data key = some e → e.IsExpired nowMs = true →
      (Store.Incr s nowMs key delta).1 = .ok (int64add 0 delta) ∧
      lookupKey (Store.Incr s nowMs key delta).2.data key =
        some { Value := formatInt (int64add 0 delta), Version := 1,
               ExpiryMs := -1,
               SizeBytes := (formatInt (int64add 0 delta)).length }) ∧
    (∀ e, lookupKey s.data key = some e → e.IsExpired nowMs = false →
      parseInt64 e.Value = none →
      (Store.Incr s nowMs key delta).1 = .error .notInteger) ∧
    (∀ e cur, lookupKey s.data key = some e → e.IsExpired nowMs = false →
      parseInt64 e.Value = some cur →
      (Store.Incr s nowMs key delta).1 = .ok (int64add cur delta) ∧
      lookupKey (Store.Incr s nowMs key delta).2.data key =
        some { Value := formatInt (int64add cur delta),
               Version := e.Version + 1, ExpiryMs := -1,
               SizeBytes := (formatInt (int64add cur delta)).length }) := by
  refine ⟨?_, ?_, ?_, ?_⟩
  · intro hL
    simp [Store.Incr, hval, hL, lookup_insertKey]
  · intro e hL hx
    simp [Store.Incr, hval, hL, hx, lookup_insertKey]
  · intro e hL hx hp
    simp [Store.Incr, hval, hL, hx, hp]
  · intro e cur hL hx hp
    simp [Store.Incr, hval, hL, hx, hp, lookup_insertKey]

/-- A store holding the live non-integer entry `t ↦ "hello"`. -/
def c7TextStore : Store :=
  { data := [([116], { Value := [104, 101, 108, 108, 111], Version := 1, ExpiryMs := -1, SizeBytes := 5 })] }

/-- Witness for C7 at concrete inputs: INCR of an absent key, of a live
non-integer value, and of the live value "5". -/
theorem c7_witness :
    ((Store.Incr {} 0 [110] 7).1 = .ok (int64add 0 7) ∧
      lookupKey (Store.Incr {} 0 [110] 7).2.data [110] =
        some { Value := formatInt (int64add 0 7), Version := 1,
               ExpiryMs := -1,
               SizeBytes := (formatInt (int64add 0 7)).length }) ∧
    (Store.Incr c7TextStore 0 [116] 1).1 = .error .notInteger ∧
    ((Store.Incr c3Store 0 [107] (-2)).1 = .ok (int64add 5 (-2)) ∧
      lookupKey (Store.Incr c3Store 0 [107] (-2)).2.data [107] =
        some { Value := formatInt (int64add 5 (-2)), Version := 3 + 1,
               ExpiryMs := -1,
               SizeBytes := (formatInt (int64add 5 (-2))).length }) :=
  ⟨(c7_incr_semantics {} 0 [110] 7 (by decide)).1 (by decide),
   (c7_incr_semantics c7TextStore 0 [116] 1 (by decide)).2.2.1
      { Value := [104, 101, 108, 108, 111], Version := 1, ExpiryMs := -1,
        SizeBytes := 5 } (by decide) (by decide) (by decide),
   (c7_incr_semantics c3Store 0 [107] (-2) (by decide)).2.2.2
      c3Entry 5 (by decide) (by decide) (by decide)⟩

/-- C8: `Store.Set` checks the key-length bound before key-character
validation — an over-long key fails with `KeyTooLarge` even when it also
contains forbidden bytes — and a valid key with an over-long value fails
with `ValueTooLarge`; in both cases the returned store state is the input
state, unchanged. -/
theorem c8_set_size_checks (cfg : Config) (s : Store) (nowMs : Int)
    (key value : Bytes) (opts : SetOptions) :
    (key.length > cfg.MaxKeyBytes →
      Store.Set s cfg nowMs key value opts = (.error .keyTooLarge, s)) ∧
    (validateKey key = true → key.length ≤ cfg.MaxKeyBytes →
      value.length > cfg.MaxValueBytes →
      Store.Set s cfg nowMs key value opts = (.error .valueTooLarge, s)) := by
  constructor
  · intro h
    simp [Store.Set, h]
  · intro hval hk hv
    simp [Store.Set, Nat.not_lt.2 hk, hval, hv]

/-- A small configuration with 1-byte key and value limits. -/
def tinyConfig : Config := { MaxKeyBytes := 1, MaxValueBytes := 1, WALMaxBytes := 1 }

/-- Witness for C8: a 2-byte key containing a forbidden control byte
against `max_key_bytes = 1` fails `KeyTooLarge`; a valid 1-byte key with a
2-byte value against `max_value_bytes = 1` fails `ValueTooLarge`. -/
theorem c8_witness :
    (([107, 1] : Bytes).length > 1 ∧
      Store.Set {} tinyConfig 0 [107, 1] [] {} = (.error .keyTooLarge, {})) ∧
    (validateKey [107] = true ∧ ([107] : Bytes).length ≤ 1 ∧
      ([118, 118] : Bytes).length > 1 ∧
      Store.Set {} tinyConfig 0 [107] [118, 118] {} =
        (.error .valueTooLarge, {})) :=
  ⟨⟨by decide,
    (c8_set_size_checks tinyConfig {} 0 [107, 1] [] {}).1 (by decide)⟩,
   ⟨by decide, by decide, by decide,
    (c8_set_size_checks tinyConfig {} 0 [107] [118, 118] {}).2 (by decide)
      (by decide) (by decide)⟩⟩

/-- C10: `Store.Incr` enforces neither `max_key_bytes` nor
`max_value_bytes`: a character-valid key absent from the store is created
by INCR regardless of its length, even when the same key is longer than
`max_key_bytes` so that `Store.Set` rejects it with `KeyTooLarge`. -/
theorem c10_incr_ignores_size_limits (cfg : Config) (s : Store)
    (nowMs : Int) (key value : Bytes) (opts : SetOptions) (delta : Int)
    (hval : validateKey key = true) (habs : lookupKey s.data key = none)
    (hk : key.length > cfg.MaxKeyBytes) :
    (Store.Incr s nowMs key delta).1 = .ok (int64add 0 delta) ∧
    lookupKey (Store.Incr s nowMs key delta).2.data key =
      some { Value := formatInt (int64add 0 delta), Version := 1,
             ExpiryMs := -1,
             SizeBytes := (formatInt (int64add 0 delta)).length } ∧
    (Store.Set s cfg nowMs key value opts).1 = .error .keyTooLarge := by
  refine ⟨?_, ?_, ?_⟩
  · simp [Store.Incr, hval, habs]
  · simp [Store.Incr, hval, habs, lookup_insertKey]
  · simp [Store.Set, hk]

/-- Witness for C10: with `max_key_bytes = 1`, the 2-byte key `"kk"` is
created by INCR (value 1, version 1) while SET rejects it. -/
theorem c10_witness :
    validateKey [107, 107] = true ∧
    lookupKey (Store.data {}) [107, 107] = none ∧
    ([107, 107] : Bytes).length > 1 ∧
    (Store.Incr {} 0 [107, 107] 1).1 = .ok (int64add 0 1) ∧
    (Store.Set {} tinyConfig 0 [107, 107] [118] {}).1 =
      .error .keyTooLarge :=
  ⟨by decide, by decide, by decide,
   (c10_incr_ignores_size_limits tinyConfig {} 0 [107, 107] [118] {} 1
      (by decide) (by decide) (by decide)).1,
   (c10_incr_ignores_size_limits tinyConfig {} 0 [107, 107] [118] {} 1
      (by decide) (by decide) (by decide)).2.2⟩

end Osprey
